import Mathlib

/-!
Shallow embedding of src/onboard/logger.c (vscope: on-target data-acquisition
logger).  The C globals `vscope` (struct) and the two static locals of
`vscopeAcquire` (`divider`, `run_index`) are modelled as explicit state; the
uint16_t arithmetic of the C code is Nat with an explicit reduction mod 2^16
at every point where the C code stores into a uint16_t after arithmetic.
Channel-bound source values (the C `*vscope.frame[i]` dereferences) are
supplied to each tick as a function from channel slot to value.  The compile
time constants VSCOPE_DEFAULT_BUFFER_SIZE, VSCOPE_NUM_CHANNELS and
VSCOPE_MEMORY live in a header that is not part of the sources, so they are
parameters of the corresponding definitions.
-/

namespace VScope

/-- Reduction modulo 2^16: the value a C uint16_t stores. -/
def U16 (n : Nat) : Nat := n % 65536

/-- The acquisition state enumeration (VSCOPE_HALTED, VSCOPE_RUNNING,
VSCOPE_ACQUIRING, VSCOPE_MISCONFIGURED); the host request field uses the
same values. -/
inductive VState where
  | halted
  | running
  | acquiring
  | misconfigured
deriving DecidableEq, Repr

/-- The `VscopeStruct` global: acquisition state, host request, host-writable
configuration, the ring buffer (row = frame slot, column = channel) and its
write cursor `index`, and `first_element`. -/
structure Vscope where
  state : VState
  request : VState
  buffer_size : Nat
  n_ch : Nat
  pre_trig : Nat
  divider : Nat
  acq_time : Nat
  index : Nat
  first_element : Nat
  buffer : Nat → Nat → Int

/-- The full machine state: the vscope struct plus the two static locals of
`vscopeAcquire` (`divCnt` is the static `divider` counter, `run_index` the
static run counter) and a ghost counter `captures` that counts the calls to
`saveFrameToBuffer` and touches nothing the code reads. -/
structure Machine where
  vs : Vscope
  divCnt : Nat
  run_index : Nat
  captures : Nat

/-- The C function saveFrameToBuffer: writes the current value of every channel slot
`i < nch` (nch = VSCOPE_NUM_CHANNELS) into buffer row `vscope.index`,
increments the cursor (uint16 arithmetic) and wraps it to 0 when it equals
`buffer_size`. -/
def saveFrameToBuffer (nch : Nat) (frame : Nat → Int) (s : Vscope) : Vscope :=
  let buf : Nat → Nat → Int := fun r c =>
    if r = s.index ∧ c < nch then frame c else s.buffer r c
  let idx := U16 (s.index + 1)
  { s with buffer := buf, index := if idx = s.buffer_size then 0 else idx }

/-- The C function vscopeAcquire: the tick entry point.  First the decimation gate
(increment the static counter, return when it is still below the configured
divisor, else reset it and evaluate), then the state machine switch. -/
def vscopeAcquire (nch : Nat) (frame : Nat → Int) (m : Machine) : Machine :=
  let d := U16 (m.divCnt + 1)
  if d < m.vs.divider then
    { m with divCnt := d }
  else
    let m0 : Machine := { m with divCnt := 0 }
    match m0.vs.state with
    | VState.halted =>
      let s1 := { m0.vs with index := 0 }
      let s2 := if s1.request = VState.running
                then { s1 with state := VState.running } else s1
      { m0 with vs := s2 }
    | VState.running =>
      let s1 := if m0.vs.request = VState.halted
                then { m0.vs with state := VState.halted } else m0.vs
      if m0.vs.request = VState.acquiring then
        if m0.vs.acq_time = 0 then
          let s2 := { s1 with state := VState.halted, first_element := s1.index }
          { m0 with vs := saveFrameToBuffer nch frame s2
                  , captures := m0.captures + 1 }
        else
          let s2 := { s1 with state := VState.acquiring }
          { m0 with vs := saveFrameToBuffer nch frame s2
                  , run_index := 1
                  , captures := m0.captures + 1 }
      else
        { m0 with vs := saveFrameToBuffer nch frame s1
                , captures := m0.captures + 1 }
    | VState.acquiring =>
      if m0.run_index = m0.vs.acq_time then
        { m0 with vs := { m0.vs with state := VState.halted
                                   , first_element := m0.vs.index } }
      else
        { m0 with vs := saveFrameToBuffer nch frame m0.vs
                , run_index := U16 (m0.run_index + 1)
                , captures := m0.captures + 1 }
    | VState.misconfigured => m0

/-- The C function vscopeTrigger: sets the request to Acquiring when the state is Running,
otherwise does nothing. -/
def vscopeTrigger (m : Machine) : Machine :=
  if m.vs.state = VState.running
  then { m with vs := { m.vs with request := VState.acquiring } }
  else m

/-- The state-relevant part of `vscopeInit`, parameterized by the header
constants VSCOPE_DEFAULT_BUFFER_SIZE, VSCOPE_NUM_CHANNELS and VSCOPE_MEMORY:
zeroes the buffer, sets state and request to Halted, installs the default
configuration, switches state to Misconfigured when default_buffer_size *
num_channels exceeds memory, and computes `acq_time` last (from the freshly
written `pre_trig`).  Fields the C function does not assign (`index`,
`first_element`) are preserved from the prior struct contents. -/
def vscopeInit (default_buffer_size num_channels memory : Nat) (s : Vscope) : Vscope :=
  let s1 := { s with buffer := fun _ _ => 0
                   , state := VState.halted
                   , request := VState.halted
                   , buffer_size := U16 default_buffer_size
                   , n_ch := U16 num_channels
                   , pre_trig := 0
                   , divider := 1 }
  let s2 := if default_buffer_size * num_channels > memory
            then { s1 with state := VState.misconfigured } else s1
  { s2 with acq_time := U16 (default_buffer_size - s2.pre_trig) }

/-- Iterates the tick entry point: `runTicks nch inputs n m` performs `n`
ticks, tick number `k` (0-based) sampling the channel values `inputs k`. -/
def runTicks (nch : Nat) (inputs : Nat → Nat → Int) : Nat → Machine → Machine
  | 0, m => m
  | Nat.succ k, m => runTicks nch (fun j => inputs (j + 1)) k (vscopeAcquire nch (inputs 0) m)

/-- One external operation: a tick (with the channel values it samples) or a
trigger call. -/
inductive Op where
  | tick (frame : Nat → Int)
  | trigger

/-- Runs a sequence of external operations. -/
def runOps (nch : Nat) : List Op → Machine → Machine
  | [], m => m
  | Op.tick f :: ops, m => runOps nch ops (vscopeAcquire nch f m)
  | Op.trigger :: ops, m => runOps nch ops (vscopeTrigger m)

/-- A concrete machine for concrete evaluations: state, request, capacity,
acquisition window, cursor and divisor; channel count 2, zeroed buffer,
counters at 0 (the static locals start at 0 in the C program). -/
def mkMachine (st rq : VState) (bs acq ix dv : Nat) : Machine :=
  { vs := { state := st, request := rq, buffer_size := bs, n_ch := 2
          , pre_trig := 0, divider := dv, acq_time := acq, index := ix
          , first_element := 0, buffer := fun _ _ => 0 }
  , divCnt := 0, run_index := 0, captures := 0 }

/-- All-zero channel values for one tick. -/
def zeroFrame : Nat → Int := fun _ => 0

/-- All-zero channel values for every tick. -/
def zeroInputs : Nat → Nat → Int := fun _ _ => 0

/-- The worked example of the spec, step by step: buffer_size=8, channel_count=2,
divisor=1, pre_trig=0, acq_time=8; start Halted with request Running. -/
def M0C4 : Machine := mkMachine VState.halted VState.running 8 8 0 1

/-- After the first tick of the worked example. -/
def T1C4 : Machine := vscopeAcquire 2 zeroFrame M0C4

/-- After the trigger call of the worked example. -/
def T2C4 : Machine := vscopeTrigger T1C4

/-- After the tick following the trigger (the Running-to-Acquiring tick). -/
def T3C4 : Machine := vscopeAcquire 2 zeroFrame T2C4

/-- After seven further ticks of the worked example. -/
def T10C4 : Machine := runTicks 2 zeroInputs 7 T3C4

/-- After one more tick (the terminal tick of the window). -/
def T11C4 : Machine := vscopeAcquire 2 zeroFrame T10C4

/-- Concrete machines used to instantiate the general theorems. -/
def WC1 : Machine := mkMachine VState.running VState.acquiring 8 2 0 1

def WC2 : Machine := mkMachine VState.running VState.acquiring 8 0 3 1

def WC3 : Machine := mkMachine VState.running VState.halted 8 8 3 1

def WC5 : Machine := mkMachine VState.misconfigured VState.running 8 8 0 1

def WC6 : Machine := mkMachine VState.running VState.running 8 8 3 1

def WC6d : Machine := mkMachine VState.running VState.running 8 8 3 3

def WC7 : Machine := mkMachine VState.halted VState.running 8 8 5 1

def WC9 : Machine := mkMachine VState.running VState.running 8 8 7 1

def WC10 : Machine := mkMachine VState.acquiring VState.running 8 8 2 5

/-! ### Step lemmas: one equation per branch of the tick entry point -/

/-- Decimation gate suppressed: only the static counter changes. -/
theorem acquire_gated (nch : Nat) (f : Nat → Int) (m : Machine)
    (h : U16 (m.divCnt + 1) < m.vs.divider) :
    vscopeAcquire nch f m = { m with divCnt := U16 (m.divCnt + 1) } := by
  simp [vscopeAcquire, h]

/-- Qualifying tick in Halted: cursor reset, transition on request Running. -/
theorem acquire_halted (nch : Nat) (f : Nat → Int) (m : Machine)
    (hp : ¬ U16 (m.divCnt + 1) < m.vs.divider)
    (hs : m.vs.state = VState.halted) :
    vscopeAcquire nch f m =
      { m with divCnt := 0
             , vs := if m.vs.request = VState.running
                     then { m.vs with index := 0, state := VState.running }
                     else { m.vs with index := 0 } } := by
  obtain ⟨⟨st, rq, bs, nc, pt, dv, aq, ix, fe, bf⟩, dc, ri, cp⟩ := m
  simp only at hs hp ⊢
  subst hs
  simp only [vscopeAcquire, if_neg hp]

/-- Qualifying tick in Running with request Running: a frame is captured. -/
theorem acquire_running_run (nch : Nat) (f : Nat → Int) (m : Machine)
    (hp : ¬ U16 (m.divCnt + 1) < m.vs.divider)
    (hs : m.vs.state = VState.running)
    (hr : m.vs.request = VState.running) :
    vscopeAcquire nch f m =
      { m with divCnt := 0
             , vs := saveFrameToBuffer nch f m.vs
             , captures := m.captures + 1 } := by
  obtain ⟨⟨st, rq, bs, nc, pt, dv, aq, ix, fe, bf⟩, dc, ri, cp⟩ := m
  simp only at hs hr hp ⊢
  subst hs; subst hr
  simp only [vscopeAcquire, if_neg hp]
  rfl

/-- Qualifying tick in Running with a request that is neither Halted nor
Acquiring: a frame is captured and nothing else changes. -/
theorem acquire_running_other (nch : Nat) (f : Nat → Int) (m : Machine)
    (hp : ¬ U16 (m.divCnt + 1) < m.vs.divider)
    (hs : m.vs.state = VState.running)
    (hr1 : m.vs.request ≠ VState.halted)
    (hr2 : m.vs.request ≠ VState.acquiring) :
    vscopeAcquire nch f m =
      { m with divCnt := 0
             , vs := saveFrameToBuffer nch f m.vs
             , captures := m.captures + 1 } := by
  obtain ⟨⟨st, rq, bs, nc, pt, dv, aq, ix, fe, bf⟩, dc, ri, cp⟩ := m
  simp only at hs hr1 hr2 hp ⊢
  subst hs
  simp only [vscopeAcquire, if_neg hp, if_neg hr1, if_neg hr2]

/-- Qualifying tick in Running with request Halted: transition to Halted, and
the code still captures a frame (saveFrameToBuffer is unconditional in the
Running case). -/
theorem acquire_running_halt (nch : Nat) (f : Nat → Int) (m : Machine)
    (hp : ¬ U16 (m.divCnt + 1) < m.vs.divider)
    (hs : m.vs.state = VState.running)
    (hr : m.vs.request = VState.halted) :
    vscopeAcquire nch f m =
      { m with divCnt := 0
             , vs := saveFrameToBuffer nch f { m.vs with state := VState.halted }
             , captures := m.captures + 1 } := by
  obtain ⟨⟨st, rq, bs, nc, pt, dv, aq, ix, fe, bf⟩, dc, ri, cp⟩ := m
  simp only at hs hr hp ⊢
  subst hs; subst hr
  simp only [vscopeAcquire, if_neg hp]
  rfl

/-- Qualifying tick in Running with request Acquiring and a zero acquisition
window: immediate stop (Halted, first_element := cursor), and the code still
captures a frame afterwards. -/
theorem acquire_running_acq_zero (nch : Nat) (f : Nat → Int) (m : Machine)
    (hp : ¬ U16 (m.divCnt + 1) < m.vs.divider)
    (hs : m.vs.state = VState.running)
    (hr : m.vs.request = VState.acquiring)
    (ha : m.vs.acq_time = 0) :
    vscopeAcquire nch f m =
      { m with divCnt := 0
             , vs := saveFrameToBuffer nch f
                       { m.vs with state := VState.halted
                                 , first_element := m.vs.index }
             , captures := m.captures + 1 } := by
  obtain ⟨⟨st, rq, bs, nc, pt, dv, aq, ix, fe, bf⟩, dc, ri, cp⟩ := m
  simp only at hs hr ha hp ⊢
  subst hs; subst hr; subst ha
  simp only [vscopeAcquire, if_neg hp]
  rfl

/-- Qualifying tick in Running with request Acquiring and a non-zero window:
transition to Acquiring, arm the run counter at 1, capture a frame. -/
theorem acquire_running_acq_pos (nch : Nat) (f : Nat → Int) (m : Machine)
    (hp : ¬ U16 (m.divCnt + 1) < m.vs.divider)
    (hs : m.vs.state = VState.running)
    (hr : m.vs.request = VState.acquiring)
    (ha : m.vs.acq_time ≠ 0) :
    vscopeAcquire nch f m =
      { m with divCnt := 0
             , vs := saveFrameToBuffer nch f { m.vs with state := VState.acquiring }
             , run_index := 1
             , captures := m.captures + 1 } := by
  obtain ⟨⟨st, rq, bs, nc, pt, dv, aq, ix, fe, bf⟩, dc, ri, cp⟩ := m
  simp only at hs hr ha hp ⊢
  subst hs; subst hr
  simp only [vscopeAcquire, if_neg hp, if_neg ha]
  rfl

/-- Qualifying tick in Acquiring before the window is full: increment the run
counter and capture a frame. -/
theorem acquire_acquiring_mid (nch : Nat) (f : Nat → Int) (m : Machine)
    (hp : ¬ U16 (m.divCnt + 1) < m.vs.divider)
    (hs : m.vs.state = VState.acquiring)
    (hn : m.run_index ≠ m.vs.acq_time) :
    vscopeAcquire nch f m =
      { m with divCnt := 0
             , vs := saveFrameToBuffer nch f m.vs
             , run_index := U16 (m.run_index + 1)
             , captures := m.captures + 1 } := by
  obtain ⟨⟨st, rq, bs, nc, pt, dv, aq, ix, fe, bf⟩, dc, ri, cp⟩ := m
  simp only at hs hn hp ⊢
  subst hs
  simp only [vscopeAcquire, if_neg hp, if_neg hn]

/-- Qualifying tick in Acquiring with the window full: stop (Halted,
first_element := cursor), no frame captured on this terminal tick. -/
theorem acquire_acquiring_end (nch : Nat) (f : Nat → Int) (m : Machine)
    (hp : ¬ U16 (m.divCnt + 1) < m.vs.divider)
    (hs : m.vs.state = VState.acquiring)
    (hn : m.run_index = m.vs.acq_time) :
    vscopeAcquire nch f m =
      { m with divCnt := 0
             , vs := { m.vs with state := VState.halted
                               , first_element := m.vs.index } } := by
  obtain ⟨⟨st, rq, bs, nc, pt, dv, aq, ix, fe, bf⟩, dc, ri, cp⟩ := m
  simp only at hs hn hp ⊢
  subst hs
  simp only [vscopeAcquire, if_neg hp, if_pos hn]

/-- Qualifying tick in Misconfigured: nothing happens beyond the gate reset. -/
theorem acquire_misconfigured (nch : Nat) (f : Nat → Int) (m : Machine)
    (hp : ¬ U16 (m.divCnt + 1) < m.vs.divider)
    (hs : m.vs.state = VState.misconfigured) :
    vscopeAcquire nch f m = { m with divCnt := 0 } := by
  obtain ⟨⟨st, rq, bs, nc, pt, dv, aq, ix, fe, bf⟩, dc, ri, cp⟩ := m
  simp only at hs hp ⊢
  subst hs
  simp only [vscopeAcquire, if_neg hp]

/-! ### Frame-capture lemmas -/

theorem save_state (nch : Nat) (f : Nat → Int) (s : Vscope) :
    (saveFrameToBuffer nch f s).state = s.state := rfl

theorem save_request (nch : Nat) (f : Nat → Int) (s : Vscope) :
    (saveFrameToBuffer nch f s).request = s.request := rfl

theorem save_buffer_size (nch : Nat) (f : Nat → Int) (s : Vscope) :
    (saveFrameToBuffer nch f s).buffer_size = s.buffer_size := rfl

theorem save_divider (nch : Nat) (f : Nat → Int) (s : Vscope) :
    (saveFrameToBuffer nch f s).divider = s.divider := rfl

theorem save_acq_time (nch : Nat) (f : Nat → Int) (s : Vscope) :
    (saveFrameToBuffer nch f s).acq_time = s.acq_time := rfl

theorem save_first_element (nch : Nat) (f : Nat → Int) (s : Vscope) :
    (saveFrameToBuffer nch f s).first_element = s.first_element := rfl

theorem save_index (nch : Nat) (f : Nat → Int) (s : Vscope) :
    (saveFrameToBuffer nch f s).index =
      if U16 (s.index + 1) = s.buffer_size then 0 else U16 (s.index + 1) := rfl

theorem save_buffer (nch : Nat) (f : Nat → Int) (s : Vscope) :
    (saveFrameToBuffer nch f s).buffer =
      fun r c => if r = s.index ∧ c < nch then f c else s.buffer r c := rfl

/-- The cursor stays below the capacity across a frame capture. -/
theorem save_index_lt (nch : Nat) (f : Nat → Int) (s : Vscope)
    (hb : 1 ≤ s.buffer_size) (hi : s.index < s.buffer_size) :
    (saveFrameToBuffer nch f s).index < s.buffer_size := by
  rw [save_index]
  unfold U16
  split <;> omega

/-- With a capacity that fits a uint16 and an in-range cursor, the capture
advances the cursor by one modulo the capacity. -/
theorem save_index_mod (nch : Nat) (f : Nat → Int) (s : Vscope)
    (hb : 1 ≤ s.buffer_size) (hbs : s.buffer_size < 65536)
    (hi : s.index < s.buffer_size) :
    (saveFrameToBuffer nch f s).index = (s.index + 1) % s.buffer_size := by
  have hu : U16 (s.index + 1) = s.index + 1 := Nat.mod_eq_of_lt (by omega)
  rcases Nat.lt_or_ge (s.index + 1) s.buffer_size with h | h
  · rw [save_index, hu, if_neg (by omega), Nat.mod_eq_of_lt h]
  · have he : s.index + 1 = s.buffer_size := by omega
    rw [save_index, hu, if_pos he, he, Nat.mod_self]

/-! ### Iteration lemmas -/

theorem runTicks_succ (nch : Nat) (inputs : Nat → Nat → Int) (k : Nat) (m : Machine) :
    runTicks nch inputs (k + 1) m =
      runTicks nch (fun j => inputs (j + 1)) k (vscopeAcquire nch (inputs 0) m) := rfl

theorem runTicks_succ_back (nch : Nat) (inputs : Nat → Nat → Int) (k : Nat) (m : Machine) :
    runTicks nch inputs (k + 1) m =
      vscopeAcquire nch (inputs k) (runTicks nch inputs k m) := by
  induction k generalizing inputs m with
  | zero => rfl
  | succ k ih =>
    rw [runTicks_succ]
    rw [ih]
    rw [← runTicks_succ]

/-! ### Misconfigured inertness -/

/-- A tick from Misconfigured leaves the whole vscope struct, the ghost
capture counter and the run counter untouched. -/
theorem acquire_inert_of_misconfigured (nch : Nat) (f : Nat → Int) (m : Machine)
    (hs : m.vs.state = VState.misconfigured) :
    (vscopeAcquire nch f m).vs = m.vs ∧
    (vscopeAcquire nch f m).captures = m.captures ∧
    (vscopeAcquire nch f m).run_index = m.run_index := by
  by_cases hp : U16 (m.divCnt + 1) < m.vs.divider
  · rw [acquire_gated nch f m hp]
    exact ⟨rfl, rfl, rfl⟩
  · rw [acquire_misconfigured nch f m hp hs]
    exact ⟨rfl, rfl, rfl⟩

/-- A trigger call outside Running does nothing. -/
theorem trigger_of_not_running (m : Machine) (hs : m.vs.state ≠ VState.running) :
    vscopeTrigger m = m := by
  simp [vscopeTrigger, hs]

/-- Any sequence of ticks and triggers from Misconfigured leaves the vscope
struct unchanged and captures no frame. -/
theorem runOps_inert_of_misconfigured (nch : Nat) (ops : List Op) (m : Machine)
    (hs : m.vs.state = VState.misconfigured) :
    (runOps nch ops m).vs = m.vs ∧ (runOps nch ops m).captures = m.captures := by
  induction ops generalizing m with
  | nil => exact ⟨rfl, rfl⟩
  | cons op ops ih =>
    cases op with
    | tick f =>
      have h := acquire_inert_of_misconfigured nch f m hs
      have hs' : (vscopeAcquire nch f m).vs.state = VState.misconfigured := by
        rw [h.1]; exact hs
      have h2 := ih (vscopeAcquire nch f m) hs'
      refine ⟨?_, ?_⟩
      · show (runOps nch ops (vscopeAcquire nch f m)).vs = m.vs
        rw [h2.1, h.1]
      · show (runOps nch ops (vscopeAcquire nch f m)).captures = m.captures
        rw [h2.2, h.2.1]
    | trigger =>
      have ht : vscopeTrigger m = m :=
        trigger_of_not_running m (by rw [hs]; simp)
      have h2 := ih m hs
      refine ⟨?_, ?_⟩
      · show (runOps nch ops (vscopeTrigger m)).vs = m.vs
        rw [ht, h2.1]
      · show (runOps nch ops (vscopeTrigger m)).captures = m.captures
        rw [ht, h2.2]

/-! ### Run lemmas: iterated ticks in one state -/

/-- Mid-window run: from Acquiring with the run counter armed and `j` more
frames to spare, `j` qualifying ticks (divisor 1) each capture one frame and
increment the run counter, staying in Acquiring. -/
theorem acquiring_run (nch : Nat) (T : Nat) (hT : T < 65536) (j : Nat) :
    ∀ (inputs : Nat → Nat → Int) (m : Machine),
      m.vs.state = VState.acquiring →
      m.vs.acq_time = T →
      m.vs.divider = 1 →
      m.divCnt = 0 →
      1 ≤ m.run_index →
      m.run_index + j ≤ T →
      (runTicks nch inputs j m).vs.state = VState.acquiring ∧
      (runTicks nch inputs j m).run_index = m.run_index + j ∧
      (runTicks nch inputs j m).captures = m.captures + j ∧
      (runTicks nch inputs j m).vs.acq_time = T ∧
      (runTicks nch inputs j m).vs.divider = 1 ∧
      (runTicks nch inputs j m).divCnt = 0 ∧
      (runTicks nch inputs j m).vs.buffer_size = m.vs.buffer_size := by
  induction j with
  | zero =>
    intro inputs m hs ha hd hc h1 hj
    exact ⟨hs, rfl, rfl, ha, hd, hc, rfl⟩
  | succ j ih =>
    intro inputs m hs ha hd hc h1 hj
    have hp : ¬ U16 (m.divCnt + 1) < m.vs.divider := by
      rw [hc, hd]; simp [U16]
    have hne : m.run_index ≠ m.vs.acq_time := by rw [ha]; omega
    have hru : U16 (m.run_index + 1) = m.run_index + 1 := Nat.mod_eq_of_lt (by omega)
    rw [runTicks_succ, acquire_acquiring_mid nch (inputs 0) m hp hs hne]
    obtain ⟨c1, c2, c3, c4, c5, c6, c7⟩ :=
      ih (fun j => inputs (j + 1))
        { m with divCnt := 0
               , vs := saveFrameToBuffer nch (inputs 0) m.vs
               , run_index := U16 (m.run_index + 1)
               , captures := m.captures + 1 }
        (by simpa [save_state] using hs)
        (by simpa [save_acq_time] using ha)
        (by simpa [save_divider] using hd)
        rfl
        (by show 1 ≤ U16 (m.run_index + 1); rw [hru]; omega)
        (by show U16 (m.run_index + 1) + j ≤ T; rw [hru]; omega)
    refine ⟨c1, ?_, ?_, c4, c5, c6, ?_⟩
    · rw [c2]
      show U16 (m.run_index + 1) + j = m.run_index + (j + 1)
      rw [hru]; omega
    · rw [c3]
      show m.captures + 1 + j = m.captures + (j + 1)
      omega
    · rw [c7]; exact save_buffer_size nch (inputs 0) m.vs

/-- Suppressed run: while the static decimation counter stays below the
configured divisor, ticks only advance the counter and touch nothing else. -/
theorem runTicks_gated (nch : Nat) (j : Nat) :
    ∀ (inputs : Nat → Nat → Int) (m : Machine),
      m.vs.divider ≤ 65535 →
      m.divCnt + j < m.vs.divider →
      runTicks nch inputs j m = { m with divCnt := m.divCnt + j } := by
  induction j with
  | zero =>
    intro inputs m _ _
    rfl
  | succ j ih =>
    intro inputs m hdl hlt
    have hu : U16 (m.divCnt + 1) = m.divCnt + 1 := Nat.mod_eq_of_lt (by omega)
    have hp : U16 (m.divCnt + 1) < m.vs.divider := by rw [hu]; omega
    rw [runTicks_succ, acquire_gated nch (inputs 0) m hp, hu]
    rw [ih (fun j => inputs (j + 1)) { m with divCnt := m.divCnt + 1 } hdl
      (by show m.divCnt + 1 + j < m.vs.divider; omega)]
    have harith : m.divCnt + 1 + j = m.divCnt + (j + 1) := by omega
    rw [harith]

/-- Free run: from Running with request Running at divisor 1, every tick
captures one frame and advances the cursor by one modulo the capacity. -/
theorem running_run (nch : Nat) (j : Nat) :
    ∀ (inputs : Nat → Nat → Int) (m : Machine),
      m.vs.state = VState.running →
      m.vs.request = VState.running →
      m.vs.divider = 1 →
      m.divCnt = 0 →
      1 ≤ m.vs.buffer_size →
      m.vs.buffer_size < 65536 →
      m.vs.index < m.vs.buffer_size →
      (runTicks nch inputs j m).vs.state = VState.running ∧
      (runTicks nch inputs j m).vs.index = (m.vs.index + j) % m.vs.buffer_size ∧
      (runTicks nch inputs j m).captures = m.captures + j ∧
      (runTicks nch inputs j m).vs.buffer_size = m.vs.buffer_size ∧
      (runTicks nch inputs j m).vs.request = VState.running ∧
      (runTicks nch inputs j m).vs.divider = 1 ∧
      (runTicks nch inputs j m).divCnt = 0 := by
  induction j with
  | zero =>
    intro inputs m hs hr hd hc hb hbs hi
    exact ⟨hs, (Nat.mod_eq_of_lt hi).symm, rfl, rfl, hr, hd, hc⟩
  | succ j ih =>
    intro inputs m hs hr hd hc hb hbs hi
    have hp : ¬ U16 (m.divCnt + 1) < m.vs.divider := by
      rw [hc, hd]; simp [U16]
    rw [runTicks_succ, acquire_running_run nch (inputs 0) m hp hs hr]
    obtain ⟨c1, c2, c3, c4, c5, c6, c7⟩ :=
      ih (fun j => inputs (j + 1))
        { m with divCnt := 0
               , vs := saveFrameToBuffer nch (inputs 0) m.vs
               , captures := m.captures + 1 }
        (by simpa [save_state] using hs)
        (by simpa [save_request] using hr)
        (by simpa [save_divider] using hd)
        rfl
        (by simpa [save_buffer_size] using hb)
        (by simpa [save_buffer_size] using hbs)
        (by
          show (saveFrameToBuffer nch (inputs 0) m.vs).index <
            (saveFrameToBuffer nch (inputs 0) m.vs).buffer_size
          rw [save_buffer_size]
          exact save_index_lt nch (inputs 0) m.vs hb hi)
    refine ⟨c1, ?_, ?_, ?_, c5, c6, c7⟩
    · rw [c2]
      show _ % (saveFrameToBuffer nch (inputs 0) m.vs).buffer_size = _
      rw [save_buffer_size, save_index_mod nch (inputs 0) m.vs hb hbs hi,
        Nat.mod_add_mod]
      have harith : m.vs.index + 1 + j = m.vs.index + (j + 1) := by omega
      rw [harith]
    · rw [c3]
      show m.captures + 1 + j = m.captures + (j + 1)
      omega
    · rw [c4]; exact save_buffer_size nch (inputs 0) m.vs

/-! ### The claims -/

/-- C5: initialization with buffer_size x channel_count within the storage
budget leaves state Halted; exceeding the budget leaves state Misconfigured,
and from Misconfigured no sequence of tick or trigger calls ever changes the
vscope struct (state, buffer, cursor) or captures a frame. -/
theorem vscope_C5 (dbs nc mem : Nat) (s : Vscope) (nch : Nat) (ops : List Op)
    (m : Machine) (hm : m.vs.state = VState.misconfigured) :
    (dbs * nc ≤ mem → (vscopeInit dbs nc mem s).state = VState.halted) ∧
    (mem < dbs * nc → (vscopeInit dbs nc mem s).state = VState.misconfigured) ∧
    (runOps nch ops m).vs = m.vs ∧
    (runOps nch ops m).captures = m.captures := by
  refine ⟨?_, ?_, (runOps_inert_of_misconfigured nch ops m hm).1,
    (runOps_inert_of_misconfigured nch ops m hm).2⟩
  · intro h
    simp only [vscopeInit]
    rw [if_neg (by omega : ¬ dbs * nc > mem)]
  · intro h
    simp only [vscopeInit]
    rw [if_pos (by omega : dbs * nc > mem)]

/-- C5 witness: a concrete in-budget and a concrete over-budget
initialization, and a concrete Misconfigured machine run through a tick and
a trigger. -/
theorem vscope_C5_witness :
    (8 * 2 ≤ 16 → (vscopeInit 8 2 16 WC5.vs).state = VState.halted) ∧
    (16 < 8 * 2 → (vscopeInit 8 2 16 WC5.vs).state = VState.misconfigured) ∧
    (runOps 2 [Op.tick zeroFrame, Op.trigger] WC5).vs = WC5.vs ∧
    (runOps 2 [Op.tick zeroFrame, Op.trigger] WC5).captures = WC5.captures :=
  vscope_C5 8 2 16 WC5.vs 2 [Op.tick zeroFrame, Op.trigger] WC5 rfl

/-- C7: every qualifying tick taken in Halted resets the write cursor to 0,
captures nothing, leaves the buffer as-is, and transitions to Running when
the request is Running. -/
theorem vscope_C7 (nch : Nat) (f : Nat → Int) (m : Machine)
    (hp : ¬ U16 (m.divCnt + 1) < m.vs.divider)
    (hs : m.vs.state = VState.halted) :
    (vscopeAcquire nch f m).vs.index = 0 ∧
    (vscopeAcquire nch f m).captures = m.captures ∧
    (vscopeAcquire nch f m).vs.buffer = m.vs.buffer ∧
    (m.vs.request = VState.running →
      (vscopeAcquire nch f m).vs.state = VState.running) := by
  rw [acquire_halted nch f m hp hs]
  refine ⟨?_, rfl, ?_, ?_⟩
  · dsimp only
    split <;> rfl
  · dsimp only
    split <;> rfl
  · intro hr
    dsimp only
    rw [if_pos hr]

/-- C7 witness: from Halted with request Running and cursor 5, one tick at
divisor 1 ends Running with cursor 0 and no frame captured. -/
theorem vscope_C7_witness :
    (vscopeAcquire 2 zeroFrame WC7).vs.index = 0 ∧
    (vscopeAcquire 2 zeroFrame WC7).captures = WC7.captures ∧
    (vscopeAcquire 2 zeroFrame WC7).vs.buffer = WC7.vs.buffer ∧
    (WC7.vs.request = VState.running →
      (vscopeAcquire 2 zeroFrame WC7).vs.state = VState.running) :=
  vscope_C7 2 zeroFrame WC7 (by decide) rfl

/-- C8: a trigger call in Running sets the request to Acquiring and changes
nothing else; in any other state it changes nothing at all. -/
theorem vscope_C8 (m : Machine) :
    (m.vs.state = VState.running →
      vscopeTrigger m =
        { m with vs := { m.vs with request := VState.acquiring } }) ∧
    (m.vs.state ≠ VState.running → vscopeTrigger m = m) := by
  constructor
  · intro hs
    simp [vscopeTrigger, hs]
  · exact trigger_of_not_running m

/-- C9: with a positive capacity and an in-range cursor, both the tick and
the trigger entry points keep the cursor below the capacity and leave the
capacity itself unchanged. -/
theorem vscope_C9 (nch : Nat) (f : Nat → Int) (m : Machine)
    (hb : 1 ≤ m.vs.buffer_size)
    (hi : m.vs.index < m.vs.buffer_size) :
    (vscopeAcquire nch f m).vs.buffer_size = m.vs.buffer_size ∧
    (vscopeAcquire nch f m).vs.index < m.vs.buffer_size ∧
    (vscopeTrigger m).vs.buffer_size = m.vs.buffer_size ∧
    (vscopeTrigger m).vs.index < m.vs.buffer_size := by
  have htrig : (vscopeTrigger m).vs.buffer_size = m.vs.buffer_size ∧
      (vscopeTrigger m).vs.index = m.vs.index := by
    unfold vscopeTrigger
    split <;> exact ⟨rfl, rfl⟩
  have hacq : (vscopeAcquire nch f m).vs.buffer_size = m.vs.buffer_size ∧
      (vscopeAcquire nch f m).vs.index < m.vs.buffer_size := by
    by_cases hp : U16 (m.divCnt + 1) < m.vs.divider
    · rw [acquire_gated nch f m hp]
      exact ⟨rfl, hi⟩
    · cases hst : m.vs.state with
      | halted =>
        rw [acquire_halted nch f m hp hst]
        constructor
        · dsimp only
          split <;> rfl
        · dsimp only
          split <;> exact hb
      | running =>
        cases hrq : m.vs.request with
        | halted =>
          rw [acquire_running_halt nch f m hp hst hrq]
          exact ⟨rfl, save_index_lt nch f _ hb hi⟩
        | running =>
          rw [acquire_running_run nch f m hp hst hrq]
          exact ⟨rfl, save_index_lt nch f _ hb hi⟩
        | acquiring =>
          by_cases ha : m.vs.acq_time = 0
          · rw [acquire_running_acq_zero nch f m hp hst hrq ha]
            exact ⟨rfl, save_index_lt nch f _ hb hi⟩
          · rw [acquire_running_acq_pos nch f m hp hst hrq ha]
            exact ⟨rfl, save_index_lt nch f _ hb hi⟩
        | misconfigured =>
          rw [acquire_running_other nch f m hp hst (by rw [hrq]; simp)
            (by rw [hrq]; simp)]
          exact ⟨rfl, save_index_lt nch f _ hb hi⟩
      | acquiring =>
        by_cases hn : m.run_index = m.vs.acq_time
        · rw [acquire_acquiring_end nch f m hp hst hn]
          exact ⟨rfl, hi⟩
        · rw [acquire_acquiring_mid nch f m hp hst hn]
          exact ⟨rfl, save_index_lt nch f _ hb hi⟩
      | misconfigured =>
        rw [acquire_misconfigured nch f m hp hst]
        exact ⟨rfl, hi⟩
  refine ⟨hacq.1, hacq.2, htrig.1, ?_⟩
  rw [htrig.2]
  exact hi

/-- C9 witness: a concrete Running machine with cursor 7 in a capacity-8
buffer keeps its cursor in range across a tick and a trigger. -/
theorem vscope_C9_witness :
    (vscopeAcquire 2 zeroFrame WC9).vs.buffer_size = WC9.vs.buffer_size ∧
    (vscopeAcquire 2 zeroFrame WC9).vs.index < WC9.vs.buffer_size ∧
    (vscopeTrigger WC9).vs.buffer_size = WC9.vs.buffer_size ∧
    (vscopeTrigger WC9).vs.index < WC9.vs.buffer_size :=
  vscope_C9 2 zeroFrame WC9 (by decide) (by decide)

/-- C10: with a reachable static decimation counter (it never exceeds 65534,
see the last conjunct), a divisor of 0 never suppresses evaluation — the
incremented counter is at least 1, so the gate comparison fails for divisor
0 just as for divisor 1 — and the tick behaves identically to a divisor of 1
apart from the stored divisor value itself. -/
theorem vscope_C10 (nch : Nat) (f : Nat → Int) (m : Machine)
    (hc : m.divCnt ≤ 65534) :
    ¬ U16 (m.divCnt + 1) < 0 ∧
    ¬ U16 (m.divCnt + 1) < 1 ∧
    vscopeAcquire nch f { m with vs := { m.vs with divider := 0 } } =
      { vscopeAcquire nch f { m with vs := { m.vs with divider := 1 } } with
          vs := { (vscopeAcquire nch f
                    { m with vs := { m.vs with divider := 1 } }).vs with
                    divider := 0 } } ∧
    (m.vs.divider ≤ 65535 → (vscopeAcquire nch f m).divCnt ≤ 65534) := by
  have hu : U16 (m.divCnt + 1) = m.divCnt + 1 := Nat.mod_eq_of_lt (by omega)
  refine ⟨by omega, by rw [hu]; omega, ?_, ?_⟩
  · obtain ⟨⟨st, rq, bs, nc, pt, dv, aq, ix, fe, bf⟩, dc, ri, cp⟩ := m
    simp only at hu
    simp only [vscopeAcquire, saveFrameToBuffer, hu]
    rw [if_neg (by omega : ¬ dc + 1 < 0), if_neg (by omega : ¬ dc + 1 < 1)]
    cases st <;> dsimp only <;> split_ifs <;> rfl
  · intro hdl
    by_cases hp : U16 (m.divCnt + 1) < m.vs.divider
    · rw [acquire_gated nch f m hp]
      show U16 (m.divCnt + 1) ≤ 65534
      omega
    · obtain ⟨⟨st, rq, bs, nc, pt, dv, aq, ix, fe, bf⟩, dc, ri, cp⟩ := m
      simp only at hp ⊢
      simp only [vscopeAcquire, if_neg hp]
      cases st <;> dsimp only <;> (try split_ifs) <;> simp

/-- C10 witness: a concrete Acquiring machine at divisor 0 ticks identically
to divisor 1 and the gate does not suppress evaluation. -/
theorem vscope_C10_witness :
    ¬ U16 (WC10.divCnt + 1) < 0 ∧
    ¬ U16 (WC10.divCnt + 1) < 1 ∧
    vscopeAcquire 2 zeroFrame { WC10 with vs := { WC10.vs with divider := 0 } } =
      { vscopeAcquire 2 zeroFrame { WC10 with vs := { WC10.vs with divider := 1 } } with
          vs := { (vscopeAcquire 2 zeroFrame
                    { WC10 with vs := { WC10.vs with divider := 1 } }).vs with
                    divider := 0 } } ∧
    (WC10.vs.divider ≤ 65535 → (vscopeAcquire 2 zeroFrame WC10).divCnt ≤ 65534) :=
  vscope_C10 2 zeroFrame WC10 (by decide)

/-- C2 counterexample: in Running with request Acquiring and acq_time = 0 at
cursor 3, the qualifying tick does change the write cursor (3 to 4), against
the claim that the tick leaves buffer and cursor unchanged. -/
theorem vscope_C2_cex :
    (vscopeAcquire 2 zeroFrame WC2).vs.index ≠ WC2.vs.index := by
  decide

/-- C2 amended: on a qualifying tick in Running with request Acquiring and
acq_time = 0, the state transitions directly to Halted and first_element is
set to the cursor value at that instant, but the code still captures a frame
on that tick: the buffer row at the old cursor is overwritten and the cursor
advances (saveFrameToBuffer is unconditional in the Running case). -/
theorem vscope_C2_amended (nch : Nat) (f : Nat → Int) (m : Machine)
    (hp : ¬ U16 (m.divCnt + 1) < m.vs.divider)
    (hs : m.vs.state = VState.running)
    (hr : m.vs.request = VState.acquiring)
    (ha : m.vs.acq_time = 0) :
    (vscopeAcquire nch f m).vs.state = VState.halted ∧
    (vscopeAcquire nch f m).vs.first_element = m.vs.index ∧
    (vscopeAcquire nch f m).captures = m.captures + 1 ∧
    (vscopeAcquire nch f m).vs.buffer =
      (fun r c => if r = m.vs.index ∧ c < nch then f c else m.vs.buffer r c) ∧
    (vscopeAcquire nch f m).vs.index =
      (if U16 (m.vs.index + 1) = m.vs.buffer_size then 0
       else U16 (m.vs.index + 1)) := by
  rw [acquire_running_acq_zero nch f m hp hs hr ha]
  exact ⟨rfl, rfl, rfl, rfl, rfl⟩

/-- C2 amended witness: the concrete machine of the counterexample. -/
theorem vscope_C2_witness :
    (vscopeAcquire 2 zeroFrame WC2).vs.state = VState.halted ∧
    (vscopeAcquire 2 zeroFrame WC2).vs.first_element = WC2.vs.index ∧
    (vscopeAcquire 2 zeroFrame WC2).captures = WC2.captures + 1 ∧
    (vscopeAcquire 2 zeroFrame WC2).vs.buffer =
      (fun r c => if r = WC2.vs.index ∧ c < 2 then zeroFrame c
                  else WC2.vs.buffer r c) ∧
    (vscopeAcquire 2 zeroFrame WC2).vs.index =
      (if U16 (WC2.vs.index + 1) = WC2.vs.buffer_size then 0
       else U16 (WC2.vs.index + 1)) :=
  vscope_C2_amended 2 zeroFrame WC2 (by decide) rfl rfl rfl

/-- C3 counterexample: in Running with request Halted at cursor 3, the
qualifying tick does change the write cursor (3 to 4), against the claim
that the tick leaves the ring buffer and cursor exactly as they were. -/
theorem vscope_C3_cex :
    (vscopeAcquire 2 zeroFrame WC3).vs.index ≠ WC3.vs.index := by
  decide

/-- C3 amended: on a qualifying tick in Running with request Halted, the
state transitions to Halted, but the code still captures a frame on that
tick: the buffer row at the old cursor is overwritten and the cursor
advances (saveFrameToBuffer is unconditional in the Running case);
first_element is untouched. -/
theorem vscope_C3_amended (nch : Nat) (f : Nat → Int) (m : Machine)
    (hp : ¬ U16 (m.divCnt + 1) < m.vs.divider)
    (hs : m.vs.state = VState.running)
    (hr : m.vs.request = VState.halted) :
    (vscopeAcquire nch f m).vs.state = VState.halted ∧
    (vscopeAcquire nch f m).captures = m.captures + 1 ∧
    (vscopeAcquire nch f m).vs.buffer =
      (fun r c => if r = m.vs.index ∧ c < nch then f c else m.vs.buffer r c) ∧
    (vscopeAcquire nch f m).vs.index =
      (if U16 (m.vs.index + 1) = m.vs.buffer_size then 0
       else U16 (m.vs.index + 1)) ∧
    (vscopeAcquire nch f m).vs.first_element = m.vs.first_element := by
  rw [acquire_running_halt nch f m hp hs hr]
  exact ⟨rfl, rfl, rfl, rfl, rfl⟩

/-- C3 amended witness: the concrete machine of the counterexample. -/
theorem vscope_C3_witness :
    (vscopeAcquire 2 zeroFrame WC3).vs.state = VState.halted ∧
    (vscopeAcquire 2 zeroFrame WC3).captures = WC3.captures + 1 ∧
    (vscopeAcquire 2 zeroFrame WC3).vs.buffer =
      (fun r c => if r = WC3.vs.index ∧ c < 2 then zeroFrame c
                  else WC3.vs.buffer r c) ∧
    (vscopeAcquire 2 zeroFrame WC3).vs.index =
      (if U16 (WC3.vs.index + 1) = WC3.vs.buffer_size then 0
       else U16 (WC3.vs.index + 1)) ∧
    (vscopeAcquire 2 zeroFrame WC3).vs.first_element = WC3.vs.first_element :=
  vscope_C3_amended 2 zeroFrame WC3 (by decide) rfl rfl

/-- C4 counterexample: in the worked example of the spec the first tick from
Halted does not capture a frame — the Halted branch only resets the cursor
and switches state — so the machine ends that tick with cursor 0, not 1. -/
theorem vscope_C4_cex :
    ¬ (T1C4.vs.state = VState.running ∧ T1C4.vs.index = 1) := by
  decide

/-- C4 amended: the actual trace of the worked example (buffer_size=8,
divisor=1, pre_trig=0, acq_time=8): one tick from Halted with request
Running yields Running with cursor 0 and no frame captured; trigger sets
request Acquiring; the next tick enters Acquiring capturing one frame
(cursor 1, run counter 1); after 7 more ticks the 8th frame since arming is
captured (run counter 8, cursor 8 mod 8 = 0, still Acquiring); one further
tick transitions to Halted with first_element = cursor = 0 and no frame
captured on that terminal tick. -/
theorem vscope_C4_amended :
    T1C4.vs.state = VState.running ∧ T1C4.vs.index = 0 ∧ T1C4.captures = 0 ∧
    T2C4.vs.request = VState.acquiring ∧
    T3C4.vs.state = VState.acquiring ∧ T3C4.vs.index = 1 ∧
    T3C4.run_index = 1 ∧ T3C4.captures = 1 ∧
    T10C4.vs.state = VState.acquiring ∧ T10C4.run_index = 8 ∧
    T10C4.vs.index = 0 ∧ T10C4.captures = 8 ∧
    T11C4.vs.state = VState.halted ∧ T11C4.vs.index = 0 ∧
    T11C4.vs.first_element = 0 ∧ T11C4.captures = 8 := by
  decide

/-- C6: in Running with request Running, (a) a qualifying tick captures
exactly one frame — every channel slot below the channel count is copied
into the buffer row at the current cursor — and advances the cursor by one
modulo the capacity; (b) N ticks at divisor 1 advance the cursor by N mod
capacity, capturing N frames; (c) with divisor d only every d-th tick
invocation evaluates the state machine: the first d-1 invocations change
nothing but the static counter, and the d-th evaluates and captures. -/
theorem vscope_C6 (nch N : Nat) (inputs : Nat → Nat → Int) (m : Machine)
    (hs : m.vs.state = VState.running) (hr : m.vs.request = VState.running)
    (hd : m.vs.divider = 1) (hc : m.divCnt = 0)
    (hb : 1 ≤ m.vs.buffer_size) (hbs : m.vs.buffer_size < 65536)
    (hi : m.vs.index < m.vs.buffer_size)
    (md : Machine) (d : Nat)
    (hs2 : md.vs.state = VState.running) (hr2 : md.vs.request = VState.running)
    (hd2 : md.vs.divider = d) (hc2 : md.divCnt = 0)
    (h1d : 1 ≤ d) (hd65 : d ≤ 65535) :
    (vscopeAcquire nch (inputs 0) m).captures = m.captures + 1 ∧
    (vscopeAcquire nch (inputs 0) m).vs.buffer =
      (fun r c => if r = m.vs.index ∧ c < nch then inputs 0 c
                  else m.vs.buffer r c) ∧
    (vscopeAcquire nch (inputs 0) m).vs.index =
      (m.vs.index + 1) % m.vs.buffer_size ∧
    (runTicks nch inputs N m).vs.index =
      (m.vs.index + N) % m.vs.buffer_size ∧
    (runTicks nch inputs N m).captures = m.captures + N ∧
    (∀ j, j < d → runTicks nch inputs j md = { md with divCnt := j }) ∧
    (runTicks nch inputs d md).captures = md.captures + 1 ∧
    (runTicks nch inputs d md).divCnt = 0 := by
  have hp : ¬ U16 (m.divCnt + 1) < m.vs.divider := by
    rw [hc, hd]; simp [U16]
  have hstep := acquire_running_run nch (inputs 0) m hp hs hr
  obtain ⟨b1, b2, b3, b4, b5, b6, b7⟩ := running_run nch N inputs m hs hr hd hc hb hbs hi
  have hgate : ∀ j, j < d → runTicks nch inputs j md = { md with divCnt := j } := by
    intro j hj
    have h := runTicks_gated nch j inputs md (by rw [hd2]; exact hd65)
      (by rw [hc2, hd2]; omega)
    rw [h, hc2, Nat.zero_add]
  refine ⟨?_, ?_, ?_, b2, b3, hgate, ?_, ?_⟩
  · rw [hstep]
  · rw [hstep]
    exact save_buffer nch (inputs 0) m.vs
  · rw [hstep]
    exact save_index_mod nch (inputs 0) m.vs hb hbs hi
  · have hd1 : d - 1 + 1 = d := by omega
    rw [← hd1, runTicks_succ_back, hgate (d - 1) (by omega)]
    have hp2 : ¬ U16 (({ md with divCnt := d - 1 } : Machine).divCnt + 1) <
        ({ md with divCnt := d - 1 } : Machine).vs.divider := by
      show ¬ U16 (d - 1 + 1) < md.vs.divider
      rw [hd1, hd2]
      unfold U16
      omega
    rw [acquire_running_run nch (inputs (d - 1)) { md with divCnt := d - 1 }
      hp2 hs2 hr2]
  · have hd1 : d - 1 + 1 = d := by omega
    rw [← hd1, runTicks_succ_back, hgate (d - 1) (by omega)]
    have hp2 : ¬ U16 (({ md with divCnt := d - 1 } : Machine).divCnt + 1) <
        ({ md with divCnt := d - 1 } : Machine).vs.divider := by
      show ¬ U16 (d - 1 + 1) < md.vs.divider
      rw [hd1, hd2]
      unfold U16
      omega
    rw [acquire_running_run nch (inputs (d - 1)) { md with divCnt := d - 1 }
      hp2 hs2 hr2]

/-- C6 witness: a concrete free-running machine at divisor 1 over 5 ticks,
and one at divisor 3 across one full decimation period. -/
theorem vscope_C6_witness :
    (vscopeAcquire 2 (zeroInputs 0) WC6).captures = WC6.captures + 1 ∧
    (vscopeAcquire 2 (zeroInputs 0) WC6).vs.buffer =
      (fun r c => if r = WC6.vs.index ∧ c < 2 then zeroInputs 0 c
                  else WC6.vs.buffer r c) ∧
    (vscopeAcquire 2 (zeroInputs 0) WC6).vs.index =
      (WC6.vs.index + 1) % WC6.vs.buffer_size ∧
    (runTicks 2 zeroInputs 5 WC6).vs.index =
      (WC6.vs.index + 5) % WC6.vs.buffer_size ∧
    (runTicks 2 zeroInputs 5 WC6).captures = WC6.captures + 5 ∧
    (∀ j, j < 3 → runTicks 2 zeroInputs j WC6d = { WC6d with divCnt := j }) ∧
    (runTicks 2 zeroInputs 3 WC6d).captures = WC6d.captures + 1 ∧
    (runTicks 2 zeroInputs 3 WC6d).divCnt = 0 :=
  vscope_C6 2 5 zeroInputs WC6 rfl rfl rfl rfl (by decide) (by decide)
    (by decide) WC6d 3 rfl rfl rfl rfl (by decide) (by decide)

/-- C1: a triggered acquisition with acq_time = T > 0 (at divisor 1)
captures exactly T frames in total, counted from the Running-to-Acquiring
transition tick, which arms the run counter at 1 and itself captures a
frame; after T - 1 further ticks the counter has reached T with T frames
captured; the next (terminal) tick transitions to Halted, sets
first_element to the current write cursor — the cursor value immediately
after the last captured frame — and captures no frame (cursor, buffer and
capture count unchanged on that terminal tick). -/
theorem vscope_C1 (nch : Nat) (inputs : Nat → Nat → Int) (m : Machine) (T : Nat)
    (hs : m.vs.state = VState.running)
    (hr : m.vs.request = VState.acquiring)
    (ha : m.vs.acq_time = T)
    (hT : 0 < T) (hT2 : T < 65536)
    (hd : m.vs.divider = 1)
    (hc : m.divCnt = 0) :
    ∃ mid : Machine,
      mid = runTicks nch (fun k => inputs (k + 1)) (T - 1)
              (vscopeAcquire nch (inputs 0) m) ∧
      (vscopeAcquire nch (inputs 0) m).vs.state = VState.acquiring ∧
      (vscopeAcquire nch (inputs 0) m).run_index = 1 ∧
      (vscopeAcquire nch (inputs 0) m).captures = m.captures + 1 ∧
      mid.vs.state = VState.acquiring ∧
      mid.run_index = T ∧
      mid.captures = m.captures + T ∧
      (vscopeAcquire nch (inputs T) mid).vs.state = VState.halted ∧
      (vscopeAcquire nch (inputs T) mid).vs.first_element = mid.vs.index ∧
      (vscopeAcquire nch (inputs T) mid).vs.index = mid.vs.index ∧
      (vscopeAcquire nch (inputs T) mid).vs.buffer = mid.vs.buffer ∧
      (vscopeAcquire nch (inputs T) mid).captures = m.captures + T := by
  have hane : m.vs.acq_time ≠ 0 := by rw [ha]; omega
  have hp1 : ¬ U16 (m.divCnt + 1) < m.vs.divider := by
    rw [hc, hd]; simp [U16]
  have step1 := acquire_running_acq_pos nch (inputs 0) m hp1 hs hr hane
  obtain ⟨c1, c2, c3, c4, c5, c6, c7⟩ :=
    acquiring_run nch T hT2 (T - 1) (fun k => inputs (k + 1))
      (vscopeAcquire nch (inputs 0) m)
      (by rw [step1]; exact save_state nch (inputs 0) _)
      (by rw [step1]; show (saveFrameToBuffer nch (inputs 0) _).acq_time = T
          rw [save_acq_time]; exact ha)
      (by rw [step1]; show (saveFrameToBuffer nch (inputs 0) _).divider = 1
          rw [save_divider]; exact hd)
      (by rw [step1])
      (by rw [step1])
      (by rw [step1]; show 1 + (T - 1) ≤ T; omega)
  have hmidrun : (runTicks nch (fun k => inputs (k + 1)) (T - 1)
      (vscopeAcquire nch (inputs 0) m)).run_index = T := by
    rw [c2, step1]
    show 1 + (T - 1) = T
    omega
  have hmidcap : (runTicks nch (fun k => inputs (k + 1)) (T - 1)
      (vscopeAcquire nch (inputs 0) m)).captures = m.captures + T := by
    rw [c3, step1]
    show m.captures + 1 + (T - 1) = m.captures + T
    omega
  have hp2 : ¬ U16 ((runTicks nch (fun k => inputs (k + 1)) (T - 1)
      (vscopeAcquire nch (inputs 0) m)).divCnt + 1) <
      (runTicks nch (fun k => inputs (k + 1)) (T - 1)
        (vscopeAcquire nch (inputs 0) m)).vs.divider := by
    rw [c6, c5]; simp [U16]
  have hn : (runTicks nch (fun k => inputs (k + 1)) (T - 1)
      (vscopeAcquire nch (inputs 0) m)).run_index =
      (runTicks nch (fun k => inputs (k + 1)) (T - 1)
        (vscopeAcquire nch (inputs 0) m)).vs.acq_time := by
    rw [hmidrun, c4]
  have stepT := acquire_acquiring_end nch (inputs T)
    (runTicks nch (fun k => inputs (k + 1)) (T - 1)
      (vscopeAcquire nch (inputs 0) m)) hp2 c1 hn
  refine ⟨runTicks nch (fun k => inputs (k + 1)) (T - 1)
    (vscopeAcquire nch (inputs 0) m), rfl, ?_, ?_, ?_, c1, hmidrun, hmidcap,
    ?_, ?_, ?_, ?_, ?_⟩
  · rw [step1]; exact save_state nch (inputs 0) _
  · rw [step1]
  · rw [step1]
  · rw [stepT]
  · rw [stepT]
  · rw [stepT]
  · rw [stepT]
  · rw [stepT]; exact hmidcap

/-- C1 witness: a concrete acquisition window of 2 frames from cursor 0 in a
capacity-8 buffer, ending Halted with first_element = cursor = 2 and exactly
2 frames captured. -/
theorem vscope_C1_witness :
    ∃ mid : Machine,
      mid = runTicks 2 (fun k => zeroInputs (k + 1)) (2 - 1)
              (vscopeAcquire 2 (zeroInputs 0) WC1) ∧
      (vscopeAcquire 2 (zeroInputs 0) WC1).vs.state = VState.acquiring ∧
      (vscopeAcquire 2 (zeroInputs 0) WC1).run_index = 1 ∧
      (vscopeAcquire 2 (zeroInputs 0) WC1).captures = WC1.captures + 1 ∧
      mid.vs.state = VState.acquiring ∧
      mid.run_index = 2 ∧
      mid.captures = WC1.captures + 2 ∧
      (vscopeAcquire 2 (zeroInputs 2) mid).vs.state = VState.halted ∧
      (vscopeAcquire 2 (zeroInputs 2) mid).vs.first_element = mid.vs.index ∧
      (vscopeAcquire 2 (zeroInputs 2) mid).vs.index = mid.vs.index ∧
      (vscopeAcquire 2 (zeroInputs 2) mid).vs.buffer = mid.vs.buffer ∧
      (vscopeAcquire 2 (zeroInputs 2) mid).captures = WC1.captures + 2 :=
  vscope_C1 2 zeroInputs WC1 2 rfl rfl rfl (by decide) (by decide) rfl rfl

end VScope
